import Mathlib

/-!
Verification of the BaseGrid data-provider layer.

This file gives a shallow embedding of the pure core of the repository:
the CSV line parser and serializer of the file-backed provider
(src/dataProviders/textFileProvider.js), its row operations
(insertRow, updateRow, deleteRow, getTableData, login), the schema
classification of the remote-relational provider
(src/dataProviders/supabaseProvider.js), and the CSV import pipeline of the
server (the import-csv route).  File-system state is modelled as the
content string of the one backing file of a table (`Option String`, with
`none` standing for a missing file / ENOENT); the remote database is
modelled as a list of records, and the order-by-id query as a sort.
-/

namespace BaseGrid

/-! ## JavaScript string primitives

The JavaScript string operations the providers use (`trim`, `split`,
`includes`, `toLowerCase`, the global quote replacement) are modelled as
computable functions on the character list of a `String`, so that every
theorem below can be checked on concrete inputs by kernel reduction. -/

/-- JavaScript `String.prototype.trim`: drop whitespace from both ends. -/
def jsTrim (s : String) : String :=
  String.mk (((s.data.dropWhile Char.isWhitespace).reverse.dropWhile Char.isWhitespace).reverse)

/-- Split a character list at every occurrence of `sep` (the separator is
dropped; empty segments are kept, as JavaScript `split` keeps them). -/
def splitChar (sep : Char) : List Char → List (List Char)
  | [] => [[]]
  | c :: rest =>
    let r := splitChar sep rest
    if c = sep then [] :: r
    else
      match r with
      | h :: t => (c :: h) :: t
      | [] => [[c]]

/-- JavaScript `String.prototype.split` with a one-character separator. -/
def jsSplit (sep : Char) (s : String) : List String :=
  (splitChar sep s.data).map String.mk

/-- JavaScript `String.prototype.includes` with a one-character needle. -/
def jsContainsChar (s : String) (c : Char) : Bool :=
  s.data.contains c

/-- JavaScript `String.prototype.toLowerCase` (ASCII, which is all the
type codes and field names use). -/
def jsToLower (s : String) : String :=
  String.mk (s.data.map Char.toLower)

/-- Decidable equality for `Except`, so that results of the fallible row
operations can be checked on concrete inputs. -/
instance exceptDecEq {ε α : Type} [DecidableEq ε] [DecidableEq α] :
    DecidableEq (Except ε α) := fun a b =>
  match a, b with
  | .ok x, .ok y =>
    if h : x = y then isTrue (by rw [h]) else isFalse (fun hc => by cases hc; exact h rfl)
  | .error x, .error y =>
    if h : x = y then isTrue (by rw [h]) else isFalse (fun hc => by cases hc; exact h rfl)
  | .ok _, .error _ => isFalse (fun hc => by cases hc)
  | .error _, .ok _ => isFalse (fun hc => by cases hc)

/-- A field descriptor, as built by the providers.  In JavaScript the
`readonly` and `luFile` properties are simply absent on objects that never
set them; an absent boolean property is falsy, so `readonly` defaults to
`false`, and an absent `luFile` is `none`. -/
structure Field where
  name : String
  type : String
  luFile : Option String := none
  readonly : Bool := false
deriving DecidableEq, Repr

/-! ## CSV line parsing (textFileProvider.js, parseCSVLine, lines 46-67) -/

/-- Loop state of `parseCSVLine`: fields emitted so far, the field being
accumulated, and whether the scanner is between quotes. -/
structure CSVScan where
  result : List String
  current : String
  inQuotes : Bool

/-- One character step of `parseCSVLine`.  A quote character only toggles
`inQuotes` and is never appended to the current field; a comma outside
quotes emits the trimmed current field; everything else is appended. -/
def parseCSVStep (st : CSVScan) (c : Char) : CSVScan :=
  if c = '"' then
    { st with inQuotes := !st.inQuotes }
  else if c = ',' ∧ st.inQuotes = false then
    { st with result := st.result ++ [jsTrim st.current], current := "" }
  else
    { st with current := String.mk (st.current.data ++ [c]) }

/-- `parseCSVLine(line)`: scan the characters of the line and emit the
trailing field (trimmed) at the end. -/
def parseCSVLine (line : String) : List String :=
  let st := line.data.foldl parseCSVStep ⟨[], "", false⟩
  st.result ++ [jsTrim st.current]

/-! ## JavaScript numeric and lookup helpers -/

/-- Value of a list of decimal digits. -/
def digitsToNat (cs : List Char) : Nat :=
  cs.foldl (fun a c => a * 10 + (c.toNat - 48)) 0

/-- Model of JavaScript `parseInt` as the provider uses it: skip leading
whitespace, take an optional sign and then the longest prefix of decimal
digits; `none` models `NaN` (no digits found).  The ids in the data files
are plain decimal integers, so the hexadecimal `0x` form of `parseInt` is
not modelled. -/
def jsParseInt (s : String) : Option Int :=
  let cs := s.data.dropWhile Char.isWhitespace
  match cs with
  | '-' :: t =>
    let ds := t.takeWhile Char.isDigit
    if ds = [] then none else some (-(digitsToNat ds : Int))
  | '+' :: t =>
    let ds := t.takeWhile Char.isDigit
    if ds = [] then none else some (digitsToNat ds : Int)
  | t =>
    let ds := t.takeWhile Char.isDigit
    if ds = [] then none else some (digitsToNat ds : Int)

/-- Lookup in a configuration object, with JavaScript truthiness: a missing
key and an empty-string value are both falsy, so both yield `none`. -/
def cfgLookup (cfg : List (String × String)) (key : String) : Option String :=
  match cfg.find? (fun p => p.1 = key) with
  | some p => if p.2 = "" then none else some p.2
  | none => none

/-! ## Header parsing and type codes (textFileProvider.js) -/

/-- `mapTypeCode` (lines 145-171): map a header type code to a semantic
type name; an absent or unknown code means `text`. -/
def mapTypeCode (code : String) : String :=
  if code = "" then "text"
  else
    let lowerCode := jsToLower code
    if lowerCode = "int" ∨ lowerCode = "integer" then "integer"
    else if lowerCode = "num" ∨ lowerCode = "number" then "number"
    else if lowerCode = "dat" ∨ lowerCode = "date" then "date"
    else if lowerCode = "bool" ∨ lowerCode = "boolean" then "boolean"
    else if lowerCode = "lu" ∨ lowerCode = "lookup" then "lu"
    else "text"

/-- `getTypeCode` (lines 208-218): inverse direction, used when writing a
header line back to the file. -/
def getTypeCode (type : String) : String :=
  if type = "integer" then "int"
  else if type = "number" then "num"
  else if type = "date" then "dat"
  else if type = "boolean" then "bool"
  else if type = "lu" then "lu"
  else "str"

/-- Parse one header field of the form `name:typecode[:lookupTarget]`
(readFile, lines 83-106).  `luCfg` is the manual lookup configuration for
this table.  Note that the produced descriptor has no `readonly` property:
in the JavaScript object it is absent (hence falsy), which the embedding
renders as the default `readonly := false`. -/
def parseHeaderField (luCfg : List (String × String)) (field : String) : Field :=
  let parts := (jsSplit ':' field).map jsTrim
  let name := if parts.headD "" = "" then "Unknown" else parts.headD ""
  let p1 := parts.getD 1 ""
  let p2 := parts.getD 2 ""
  if p1 ≠ "" ∧ jsToLower p1 = "lu" ∧ p2 ≠ "" then
    { name := name, type := "lu", luFile := some p2 }
  else
    match cfgLookup luCfg name with
    | some luFile => { name := name, type := "lu", luFile := some luFile }
    | none => { name := name, type := mapTypeCode p1 }

/-! ## readFile (textFileProvider.js, lines 69-143) -/

/-- Result of `readFile`: the parsed header descriptors (if the first line
is a header line), the data rows, and whether the self-healing id pass
changed any row (in which case `readFile` immediately writes the file
back). -/
structure ReadResult where
  headers : Option (List Field)
  rows : List (List String)
  needsUpdate : Bool
deriving DecidableEq, Repr

/-- State of the id-healing loop of `readFile` (lines 110-129). -/
structure HealState where
  rows : List (List String)
  needsUpdate : Bool
  nextId : Int
deriving Repr

/-- One line of the id-healing loop: a row whose first field is missing,
blank, or not parseable as an integer gets the next sequential id
prepended; otherwise the next id is bumped past the existing one. -/
def healStep (st : HealState) (line : String) : HealState :=
  let fields := parseCSVLine line
  let head := fields.headD ""
  if head = "" ∨ jsTrim head = "" ∨ jsParseInt head = none then
    { rows := st.rows ++ [toString st.nextId :: fields]
      needsUpdate := true
      nextId := st.nextId + 1 }
  else
    let currentId := (jsParseInt head).getD 0
    { rows := st.rows ++ [fields]
      needsUpdate := st.needsUpdate
      nextId := if currentId ≥ st.nextId then currentId + 1 else st.nextId }

/-- The parsing part of `readFile` on a file content string: split on
newlines, drop blank lines, detect a header line (any first-line field
containing a colon), then run the id-healing loop over the data lines. -/
def readContent (luCfg : List (String × String)) (content : String) : ReadResult :=
  let lines := (jsSplit '\n' content).filter (fun line => jsTrim line ≠ "")
  if lines = [] then ⟨none, [], false⟩
  else
    let firstLine := parseCSVLine (lines.headD "")
    let hasHeader := firstLine.any (fun field => jsContainsChar field ':')
    let headers := if hasHeader then some (firstLine.map (parseHeaderField luCfg)) else none
    let dataLines := if hasHeader then lines.tail else lines
    let st := dataLines.foldl healStep ⟨[], false, 1⟩
    ⟨headers, st.rows, st.needsUpdate⟩

/-- `readFile` over the file-system state of the table: a missing file
(ENOENT) is caught and reads as the empty table (lines 137-142). -/
def readFileFS (luCfg : List (String × String)) (content : Option String) : ReadResult :=
  match content with
  | none => ⟨none, [], false⟩
  | some c => readContent luCfg c

/-! ## writeFile (textFileProvider.js, lines 173-206) -/

/-- Serialize one field (lines 191-196): a field containing a comma, a
quote or a newline is wrapped in quotes with its quotes doubled. -/
def escapeQuotes : List Char → List Char
  | [] => []
  | c :: rest => if c = '"' then '"' :: '"' :: escapeQuotes rest else c :: escapeQuotes rest

def writeField (field : String) : String :=
  if jsContainsChar field ',' ∨ jsContainsChar field '"' ∨ jsContainsChar field '\n' then
    "\"" ++ String.mk (escapeQuotes field.data) ++ "\""
  else field

/-- Serialize one header descriptor (lines 180-186).  The `h.luFile`
truthiness test means an absent or empty lookup target falls through to
the plain `name:typecode` form. -/
def writeHeaderField (h : Field) : String :=
  if h.type = "lu" ∧ h.luFile.getD "" ≠ "" then
    h.name ++ ":lu:" ++ h.luFile.getD ""
  else
    h.name ++ ":" ++ getTypeCode h.type

/-- `writeFile`: the content string written for a table, an optional
header line followed by one serialized line per row, joined by newlines. -/
def joinWith (sep : String) : List String → String
  | [] => ""
  | [s] => s
  | s :: rest => s ++ sep ++ joinWith sep rest

def writeContent (headers : Option (List Field)) (rows : List (List String)) : String :=
  let headerLines : List String :=
    match headers with
    | some hs => [joinWith "," (hs.map writeHeaderField)]
    | none => []
  let csvRows := rows.map (fun row => joinWith "," (row.map writeField))
  joinWith "\n" (headerLines ++ csvRows)

/-! ## formatTitle (textFileProvider.js lines 259-267, same code in
supabaseProvider.js lines 258-266) -/

/-- The `replace(/([A-Z])/g, ' $1')` step: a space before every
upper-case character. -/
def spreadCaps (s : String) : String :=
  String.mk (s.data.foldr (fun c acc => if c.isUpper then ' ' :: c :: acc else c :: acc) [])

/-- `word.charAt(0).toUpperCase() + word.slice(1).toLowerCase()`; the
empty word stays empty. -/
def capitalizeWord (w : String) : String :=
  match w.data with
  | [] => ""
  | c :: rest => String.mk (c.toUpper :: (rest.map Char.toLower))

/-- `formatTitle(tableName)`: split camel case and underscores, title-case
every word. -/
def formatTitle (tableName : String) : String :=
  let spread := String.mk ((spreadCaps tableName).data.map (fun c => if c = '_' then ' ' else c))
  let words := jsSplit ' ' (jsTrim spread)
  joinWith " " (words.map capitalizeWord)

/-! ## getTableData and row operations (textFileProvider.js) -/

/-- The projected table sent back to the client. -/
structure TableData where
  object : String
  title : String
  headings : List Field
  rows : List (List String)
deriving DecidableEq, Repr

/-- Field descriptors derived positionally from the first data row of a
headerless table: column 0 is the readonly `id`, the rest are
`Column1`, `Column2`, ... of type text (lines 231-236). -/
def deriveFieldsFromRow (row : List String) : List Field :=
  row.enum.map (fun p =>
    { name := if p.1 = 0 then "id" else "Column" ++ toString p.1
      type := "text"
      readonly := p.1 == 0 })

/-- The headings computed by `getTableData` (lines 224-240): header
descriptors get `readonly` recomputed from the name, a headerless table
derives them from the first row, and an empty headerless table gets the
single default id descriptor. -/
def getTableDataFields (rr : ReadResult) : List Field :=
  match rr.headers with
  | some hs => hs.map (fun h => { h with readonly := jsToLower h.name == "id" })
  | none =>
    if rr.rows ≠ [] then deriveFieldsFromRow (rr.rows.headD [])
    else [{ name := "id", type := "integer", readonly := true }]

/-- `getTableData(tableName)` over the file-system state of the table
(lines 220-257): read the file (a missing file reads as the empty table)
and return the projection.  The rows are returned exactly as read, in
file order. -/
def getTableData (luCfg : List (String × String)) (tableName : String)
    (content : Option String) : TableData :=
  let rr := readFileFS luCfg content
  { object := tableName
    title := formatTitle tableName
    headings := getTableDataFields rr
    rows := rr.rows }

/-- `rowData[field.name] || ''`: the caller payload is a JSON object; a
missing key (undefined) and an empty string are both falsy and give `''`. -/
def rowDataGet (rowData : List (String × String)) (name : String) : String :=
  match rowData.find? (fun p => p.1 = name) with
  | some p => p.2
  | none => ""

/-- The field list used by `insertRow` (lines 313-317): the parsed headers
if present, else derived from the first row, else the default id field. -/
def insertFields (headers : Option (List Field)) (rows : List (List String)) : List Field :=
  match headers with
  | some hs => hs
  | none =>
    if rows ≠ [] then deriveFieldsFromRow (rows.headD [])
    else [{ name := "id", type := "integer", readonly := true }]

/-- One row of the `maxId` scan of `insertRow` (lines 320-325): a first
field that parses as an integer strictly greater than the accumulator
replaces it; anything else leaves it. -/
def maxIdStep (maxId : Int) (r : List String) : Int :=
  match jsParseInt (r.headD "") with
  | some id => if id > maxId then id else maxId
  | none => maxId

/-- The `maxId` scan of `insertRow` (lines 319-325), starting from 0. -/
def insertMaxId (rows : List (List String)) : Int :=
  rows.foldl maxIdStep 0

/-- The new row built by `insertRow` (lines 328-333): every field whose
lower-cased name is `id` gets the fresh id, every other field takes the
caller value. -/
def insertNewRow (fields : List Field) (newId : Int) (rowData : List (String × String)) :
    List String :=
  fields.map (fun field =>
    if jsToLower field.name = "id" then toString newId
    else rowDataGet rowData field.name)

/-- `insertRow` on the in-memory table (lines 309-342): append the new row
built from the field list, the fresh id `maxId + 1` and the payload. -/
def insertRow (headers : Option (List Field)) (rows : List (List String))
    (rowData : List (String × String)) : List (List String) :=
  rows ++ [insertNewRow (insertFields headers rows) (insertMaxId rows + 1) rowData]

/-- `updateRow` on the in-memory table (lines 344-372).  The row is looked
up by its first field; an absent id is the `Row not found` failure.  The
field list comes from the parsed headers when present (which, coming from
`readFile`, carry no `readonly` flag), else is derived from the first row.
A readonly field keeps the stored value, every other field takes the
caller value. -/
def updateRowRows (headers : Option (List Field)) (rows : List (List String))
    (id : String) (rowData : List (String × String)) : Except String (List (List String)) :=
  match rows.findIdx? (fun r => r.headD "" == id) with
  | none => Except.error "Row not found"
  | some rowIndex =>
    let fields :=
      match headers with
      | some hs => hs
      | none => deriveFieldsFromRow (rows.headD [])
    let oldRow := rows.getD rowIndex []
    let newRow := fields.enum.map (fun p =>
      if p.2.readonly then oldRow.getD p.1 ""
      else rowDataGet rowData p.2.name)
    Except.ok (rows.set rowIndex newRow)

/-- `deleteRow` on the in-memory table (lines 374-389): filter out the
matching row; if nothing was filtered out, fail with `Row not found`
before any write happens. -/
def deleteRowRows (rows : List (List String)) (id : String) :
    Except String (List (List String)) :=
  let filteredRows := rows.filter (fun r => !(r.headD "" == id))
  if rows.length = filteredRows.length then Except.error "Row not found"
  else Except.ok filteredRows

/-- The file content after `readFile` ran on it: if the self-healing id
pass changed a row, `readFile` immediately writes the healed table back
(lines 131-134). -/
def contentAfterRead (luCfg : List (String × String)) (content : String) : String :=
  let rr := readContent luCfg content
  if rr.needsUpdate then writeContent rr.headers rr.rows else content

/-- `updateRow` at the file level: read, update, and on success write the
new table.  The second component is the resulting file content (unchanged
past the self-healing read when the update fails). -/
def updateRowFile (luCfg : List (String × String)) (content : String) (id : String)
    (rowData : List (String × String)) : Except String String × String :=
  let rr := readContent luCfg content
  match updateRowRows rr.headers rr.rows id rowData with
  | Except.error e => (Except.error e, contentAfterRead luCfg content)
  | Except.ok newRows =>
    let newContent := writeContent rr.headers newRows
    (Except.ok newContent, newContent)

/-- `deleteRow` at the file level: read, delete, and on success write the
filtered table.  The second component is the resulting file content
(unchanged past the self-healing read when the delete fails). -/
def deleteRowFile (luCfg : List (String × String)) (content : String) (id : String) :
    Except String String × String :=
  let rr := readContent luCfg content
  match deleteRowRows rr.rows id with
  | Except.error e => (Except.error e, contentAfterRead luCfg content)
  | Except.ok filteredRows =>
    let newContent := writeContent rr.headers filteredRows
    (Except.ok newContent, newContent)

/-! ## login (textFileProvider.js lines 20-29) -/

/-- The user identity of a login result. -/
structure LoginUser where
  id : String
  email : String
deriving DecidableEq, Repr

/-- A login result of the file-backed provider. -/
structure LoginResult where
  success : Bool
  user : LoginUser
deriving DecidableEq, Repr

/-- `login(email, password)` of the file-backed provider: without required
auth the guest identity, with required auth a success built from the
supplied email.  Neither branch can fail. -/
def login (authRequired : Bool) (email _password : String) : LoginResult :=
  if !authRequired then { success := true, user := { id := "guest", email := "guest" } }
  else { success := true, user := { id := email, email := email } }

/-! ## Remote-relational provider (supabaseProvider.js)

The sample values of a discovered row are JSON scalars. -/

/-- A JSON scalar as seen by `inferType`; numbers in the repository data
are integers, so `jint` models the integral case of `typeof value ===
'number'`. -/
inductive JValue where
  | jnull
  | jint (i : Int)
  | jstr (s : String)
  | jbool (b : Bool)
deriving DecidableEq, Repr

/-- Does the character list start with the given needle? -/
def startsWithChars : List Char → List Char → Bool
  | _, [] => true
  | [], _ :: _ => false
  | c :: cs, d :: ds => c = d && startsWithChars cs ds

/-- Does the character list contain the needle as a contiguous run? -/
def hasSubChars : List Char → List Char → Bool
  | [], sub => sub.isEmpty
  | c :: cs, sub => startsWithChars (c :: cs) sub || hasSubChars cs sub

/-- JavaScript `String.prototype.includes` with a multi-character needle. -/
def jsIncludes (s sub : String) : Bool :=
  hasSubChars s.data sub.data

/-- Does the string start with four digits, a dash, two digits, a dash and
two digits?  This is the `^\d{4}-\d{2}-\d{2}` test of `inferType`; the
accompanying `Date.parse` conjunct is treated as succeeding on such
strings, which holds for the calendar dates the data contains. -/
def isoDateStart (s : String) : Bool :=
  match s.data with
  | a :: b :: c :: d :: '-' :: e :: f :: '-' :: g :: h :: _ =>
    a.isDigit && b.isDigit && c.isDigit && d.isDigit &&
      e.isDigit && f.isDigit && g.isDigit && h.isDigit
  | _ => false

/-- `inferType(value, columnName, tableName)` (supabaseProvider.js lines
232-256): null means text; a column name containing `date` or `_at` means
date; then the primitive type of the value decides. -/
def inferType (value : JValue) (columnName : String) : String :=
  match value with
  | .jnull => "text"
  | v =>
    let colLower := jsToLower columnName
    if jsIncludes colLower "date" ∨ jsIncludes colLower "_at" then "date"
    else
      match v with
      | .jint _ => "integer"
      | .jbool _ => "boolean"
      | .jstr s => if isoDateStart s then "date" else "text"
      | .jnull => "text"

/-- Lookup of a discovered foreign key for a column: the foreign-key map
binds a column name to the referenced table.  A present entry is an object
and hence always truthy. -/
def fkLookup (fks : List (String × String)) (col : String) : Option String :=
  (fks.find? (fun p => p.1 = col)).map (fun p => p.2)

/-- One field of `discoverTableSchema` (lines 190-215): the base
descriptor from the sample value, then the foreign-key test, and only when
no foreign key was discovered the manual lookup configuration
(`else if`). -/
def schemaField (fks luCfg : List (String × String)) (col : String) (value : JValue) : Field :=
  let base : Field := { name := col, type := inferType value col, readonly := col == "id" }
  match fkLookup fks col with
  | some referencedTable => { base with type := "lu", luFile := some referencedTable }
  | none =>
    match cfgLookup luCfg col with
    | some target => { base with type := "lu", luFile := some target }
    | none => base

/-- The id-first reorder of `discoverTableSchema` (lines 218-222): the
comparator sends every field named `id` before every other field and is
otherwise indifferent, so a stable sort moves the id fields to the front
and keeps both relative orders. -/
def idFirst (fields : List Field) : List Field :=
  fields.filter (fun f => f.name == "id") ++ fields.filter (fun f => !(f.name == "id"))

/-- The field list built by `discoverTableSchema` from a sample row
(ordered column/value pairs), the discovered foreign keys and the manual
lookup configuration of the table: audit columns are skipped, every other
column is classified, and the id field is moved first. -/
def discoverTableSchemaFields (fks luCfg : List (String × String))
    (sampleRow : List (String × JValue)) : List Field :=
  let fields := sampleRow.filterMap (fun p =>
    if p.1 == "created_at" || p.1 == "updated_at" then none
    else some (schemaField fks luCfg p.1 p.2))
  idFirst fields

/-- A stored record of the remote database: its integer id and the other
columns. -/
structure SRecord where
  id : Int
  attrs : List (String × JValue)
deriving DecidableEq, Repr

/-- `record[name]` on a stored record; a column the record lacks is
undefined, modelled as null. -/
def recGet (rec : SRecord) (name : String) : JValue :=
  if name = "id" then .jint rec.id
  else
    match rec.attrs.find? (fun p => p.1 = name) with
    | some p => p.2
    | none => .jnull

/-- Comparison by id, the order the `getTableData` query requests. -/
def recLE (a b : SRecord) : Prop := a.id ≤ b.id

instance : DecidableRel recLE := fun a b => inferInstanceAs (Decidable (a.id ≤ b.id))

instance : IsTotal SRecord recLE := ⟨fun a b => Int.le_total a.id b.id⟩

instance : IsTrans SRecord recLE := ⟨fun _ _ _ h1 h2 => le_trans h1 h2⟩

/-- The `select('*').order('id', ascending: true)` query of
`getTableData` (supabaseProvider.js lines 280-283): the backend returns
the stored records sorted by id ascending. -/
def supabaseQueryAll (table : List SRecord) : List SRecord :=
  List.insertionSort recLE table

/-- `getTableData` of the remote-relational provider (lines 273-300): map
every record of the id-ordered query result to the positional row given by
the metadata fields. -/
def supabaseGetTableData (fields : List Field) (table : List SRecord) :
    List (List JValue) :=
  (supabaseQueryAll table).map (fun record => fields.map (fun f => recGet record f.name))

/-! ## CSV import pipeline (server, import-csv route) -/

/-- A parsed CSV record: the header names paired with the row values, in
header order, as the streaming CSV parser produces them. -/
abbrev CsvRec := List (String × String)

/-- The response of the import route. -/
inductive ImportResponse where
  | emptyFile
  | badColumns (invalid : List String) (validColumns : List String)
  | report (imported : Nat) (total : Nat) (errors : Option (List (Nat × String)))
deriving DecidableEq, Repr

/-- The observable outcome of one import request: the response and the
records for which an insert was attempted, in order. -/
structure ImportOutcome where
  response : ImportResponse
  attempted : List CsvRec
deriving DecidableEq, Repr

/-- `Object.keys(results[0])`: the column names of the upload. -/
def csvColumns (results : List CsvRec) : List String :=
  (results.headD []).map (fun p => p.1)

/-- The CSV columns that are not among the field names of the target
table (server lines 284). -/
def invalidColumns (validColumns : List String) (results : List CsvRec) : List String :=
  (csvColumns results).filter (fun col => !(validColumns.contains col))

/-- Result of the insert loop: the success count, the recorded per-row
errors, and the records attempted. -/
structure ImportLoopOut where
  imported : Nat
  errors : List (Nat × String)
  attempted : List CsvRec
deriving DecidableEq, Repr

/-- The insert loop (server lines 292-301): every record is attempted in
order; a success bumps the count, a failure is recorded as the 1-based row
index (`i + 1`, the header excluded) with the message, and the loop
continues either way. -/
def importLoop (insertFn : CsvRec → Except String Unit) : Nat → List CsvRec → ImportLoopOut
  | _, [] => ⟨0, [], []⟩
  | i, r :: rs =>
    let rest := importLoop insertFn (i + 1) rs
    match insertFn r with
    | Except.ok _ => ⟨rest.imported + 1, rest.errors, r :: rest.attempted⟩
    | Except.error m => ⟨rest.imported, (i + 1, m) :: rest.errors, r :: rest.attempted⟩

/-- The failures of the insert loop stated directly: the 1-based positions
(counting from `i + 1`) of the records the insert function rejects, with
their messages. -/
def importFailuresFrom (insertFn : CsvRec → Except String Unit) (i : Nat)
    (results : List CsvRec) : List (Nat × String) :=
  (results.enumFrom i).filterMap (fun p =>
    match insertFn p.2 with
    | Except.error m => some (p.1 + 1, m)
    | Except.ok _ => none)

/-- Did the insert succeed? -/
def insertOk (insertFn : CsvRec → Except String Unit) (r : CsvRec) : Bool :=
  match insertFn r with
  | Except.ok _ => true
  | Except.error _ => false

/-- The import route after parsing (server lines 274-308): an empty upload
is rejected; a column mismatch aborts with the invalid columns and the
accepted column set before any insert; otherwise the insert loop runs over
every record and the summary reports the success count, the total and the
error list (absent when empty). -/
def importCSV (validColumns : List String) (results : List CsvRec)
    (insertFn : CsvRec → Except String Unit) : ImportOutcome :=
  if results = [] then ⟨.emptyFile, []⟩
  else if invalidColumns validColumns results ≠ [] then
    ⟨.badColumns (invalidColumns validColumns results) validColumns, []⟩
  else
    let out := importLoop insertFn 0 results
    ⟨.report out.imported results.length
      (if out.errors = [] then none else some out.errors), out.attempted⟩

/-! ## Order relations used to state the ordering claims -/

/-- Comparison of two projected rows by their id values. -/
def jintLE : JValue → JValue → Prop
  | .jint a, .jint b => a ≤ b
  | _, _ => False

instance : DecidableRel jintLE := fun a b =>
  match a, b with
  | .jint x, .jint y => inferInstanceAs (Decidable (x ≤ y))
  | .jnull, _ => isFalse (fun h => h)
  | .jstr _, _ => isFalse (fun h => h)
  | .jbool _, _ => isFalse (fun h => h)
  | .jint _, .jnull => isFalse (fun h => h)
  | .jint _, .jstr _ => isFalse (fun h => h)
  | .jint _, .jbool _ => isFalse (fun h => h)

/-- Comparison of two stored rows of the file-backed provider by their
parsed id fields. -/
def rowIdLE (a b : List String) : Prop :=
  (jsParseInt (a.headD "")).getD 0 ≤ (jsParseInt (b.headD "")).getD 0

instance : DecidableRel rowIdLE := fun a b =>
  inferInstanceAs (Decidable ((jsParseInt (a.headD "")).getD 0 ≤ (jsParseInt (b.headD "")).getD 0))

/-! ## Helper lemmas -/

/-- The `maxId` step on a row whose first field parses to `v` is the
maximum of the accumulator and `v`. -/
theorem maxIdStep_some {r : List String} {a v : Int}
    (h : jsParseInt (r.headD "") = some v) : maxIdStep a r = max a v := by
  simp only [maxIdStep, h]
  rcases le_or_lt v a with hva | hva
  · rw [if_neg (by omega), max_eq_left hva]
  · rw [if_pos hva, max_eq_right (le_of_lt hva)]

/-- The `maxId` step on a row whose first field does not parse leaves the
accumulator. -/
theorem maxIdStep_none {r : List String} {a : Int}
    (h : jsParseInt (r.headD "") = none) : maxIdStep a r = a := by
  simp only [maxIdStep, h]

/-- The `maxId` fold computes the fold of `max` over the parsed ids. -/
theorem foldl_maxIdStep_eq (rows : List (List String)) : ∀ a : Int,
    rows.foldl maxIdStep a
      = (rows.filterMap (fun r => jsParseInt (r.headD ""))).foldl max a := by
  induction rows with
  | nil => intro a; rfl
  | cons r rs ih =>
    intro a
    cases h : jsParseInt (r.headD "") with
    | none =>
      simp only [List.foldl_cons, List.filterMap_cons, h, maxIdStep_none h, ih]
    | some v =>
      simp only [List.foldl_cons, List.filterMap_cons, h, maxIdStep_some h, ih]

/-- Folding `max` over a list bounds the start and every element, and the
result is the start or an element. -/
theorem foldl_max_spec (l : List Int) : ∀ a : Int,
    a ≤ l.foldl max a ∧ (∀ v ∈ l, v ≤ l.foldl max a)
      ∧ (l.foldl max a = a ∨ l.foldl max a ∈ l) := by
  induction l with
  | nil => intro a; exact ⟨le_refl a, by simp, Or.inl rfl⟩
  | cons x xs ih =>
    intro a
    obtain ⟨ih1, ih2, ih3⟩ := ih (max a x)
    refine ⟨le_trans (le_max_left a x) ih1, ?_, ?_⟩
    · intro v hv
      rcases List.mem_cons.mp hv with h | h
      · subst h
        exact le_trans (le_max_right a v) ih1
      · exact ih2 v h
    · rw [List.foldl_cons]
      rcases ih3 with h | h
      · rcases max_choice a x with hm | hm
        · exact Or.inl (h.trans hm)
        · refine Or.inr ?_
          rw [h, hm]
          exact List.mem_cons_self x xs
      · exact Or.inr (List.mem_cons_of_mem x h)

/-- The insert loop, stated directly: every record is attempted in order,
the success count is the number of accepted records, and the failures are
exactly the rejected records with their 1-based positions. -/
theorem importLoop_spec (insertFn : CsvRec → Except String Unit) :
    ∀ (results : List CsvRec) (i : Nat),
      importLoop insertFn i results
        = ⟨(results.filter (insertOk insertFn)).length,
           importFailuresFrom insertFn i results,
           results⟩ := by
  intro results
  induction results with
  | nil => intro i; rfl
  | cons r rs ih =>
    intro i
    cases h : insertFn r with
    | ok u =>
      simp only [importLoop, ih (i + 1), h, importFailuresFrom, List.enumFrom,
        List.filterMap_cons, List.filter_cons, insertOk]
      simp [h, importFailuresFrom]
    | error m =>
      simp only [importLoop, ih (i + 1), h, importFailuresFrom, List.enumFrom,
        List.filterMap_cons, List.filter_cons, insertOk]
      simp [h, importFailuresFrom]

/-- No failure is recorded exactly when every insert succeeds. -/
theorem importFailuresFrom_eq_nil (insertFn : CsvRec → Except String Unit) :
    ∀ (results : List CsvRec) (i : Nat),
      importFailuresFrom insertFn i results = []
        ↔ ∀ r ∈ results, insertOk insertFn r = true := by
  intro results
  induction results with
  | nil => intro i; simp [importFailuresFrom]
  | cons r rs ih =>
    intro i
    cases h : insertFn r with
    | ok u =>
      simp only [importFailuresFrom, List.enumFrom, List.filterMap_cons, h]
      rw [show ((rs.enumFrom (i + 1)).filterMap fun p =>
          match insertFn p.2 with
          | Except.error m => some (p.1 + 1, m)
          | Except.ok _ => none) = importFailuresFrom insertFn (i + 1) rs from rfl, ih (i + 1)]
      simp [insertOk, h]
    | error m =>
      simp only [importFailuresFrom, List.enumFrom, List.filterMap_cons, h]
      constructor
      · intro hc
        exact absurd hc (by simp)
      · intro hall
        have := hall r (List.mem_cons_self r rs)
        simp [insertOk, h] at this

/-! ## Claim theorems -/

/-- Claim C1 (code bug): the file-backed write/read round-trip loses
embedded double quotes.  `writeFile` serializes the value `a,"b"` with
RFC-4180 quote doubling as `"a,""b"""`, but `parseCSVLine` only toggles
its quote state on a `"` and never emits the character, so reading the
written file yields `a,b` instead of the original value.  The commas are
preserved, the quotes are dropped. -/
theorem csv_roundtrip_drops_embedded_quotes :
    writeContent none [["1", "a,\"b\""]] = "1,\"a,\"\"b\"\"\""
    ∧ (readContent [] (writeContent none [["1", "a,\"b\""]])).rows = [["1", "a,b"]]
    ∧ [["1", "a,b"]] ≠ [["1", "a,\"b\""]] :=
  ⟨by decide, by decide, by decide⟩

/-- Claim C2 (code bug): `updateRow` of the file-backed provider does not
preserve the readonly id when the table has a header line.  The header
descriptors built by `readFile` carry no `readonly` flag (only
`getTableData`/`getRowById` add it), so the `field.readonly` guard in
`updateRow` never fires for a header table and the caller-supplied id
overwrites the stored one: updating row 1 of `id:int,Name:str\n1,Alice`
with payload `{id: 999, Name: Bob}` rewrites the file with id `999`. -/
theorem update_overwrites_readonly_id :
    (parseHeaderField [] "id:int").readonly = false
    ∧ updateRowFile [] "id:int,Name:str\n1,Alice" "1" [("id", "999"), ("Name", "Bob")]
        = (Except.ok "id:int,Name:str\n999,Bob", "id:int,Name:str\n999,Bob")
    ∧ (readContent [] "id:int,Name:str\n999,Bob").rows = [["999", "Bob"]] :=
  ⟨by decide, by decide, by decide⟩

/-- Claim C3 (code bug): in `discoverTableSchema` the foreign-key test
comes first and the manual lookup configuration sits in the `else if`
branch, so when a column has both a discovered foreign key and a manual
mapping the discovered foreign key wins — the opposite of the claim and of
the comment in the code (`overrides FK detection`).  Here `country_id` has
foreign key target `countries` and manual target `regions`, and the
classified field points at `countries`. -/
theorem fk_discovery_beats_manual_lookup :
    fkLookup [("country_id", "countries")] "country_id" = some "countries"
    ∧ cfgLookup [("country_id", "regions")] "country_id" = some "regions"
    ∧ discoverTableSchemaFields [("country_id", "countries")] [("country_id", "regions")]
        [("id", JValue.jint 1), ("country_id", JValue.jint 2)]
      = [{ name := "id", type := "integer", readonly := true },
         { name := "country_id", type := "lu", luFile := some "countries" }]
    ∧ some "countries" ≠ some "regions" :=
  ⟨by decide, by decide, by decide, by decide⟩

/-- Claim C4: a CSV upload containing a column that is not among the
target table field names makes the import abort with the invalid columns
and the accepted column set, and no insert is attempted. -/
theorem import_aborts_on_invalid_columns (validColumns : List String)
    (results : List CsvRec) (insertFn : CsvRec → Except String Unit)
    (hne : results ≠ []) (hbad : invalidColumns validColumns results ≠ []) :
    importCSV validColumns results insertFn
      = ⟨.badColumns (invalidColumns validColumns results) validColumns, []⟩ := by
  unfold importCSV
  rw [if_neg hne, if_pos hbad]

/-- Claim C4 witness: importing headers `[id, Name, Capital]` against a
table with fields `[id, Name, ISO2]` aborts naming `Capital`, with no
insert attempted. -/
theorem import_aborts_on_invalid_columns_witness :
    ([[("id", "1"), ("Name", "France"), ("Capital", "Paris")]] : List CsvRec) ≠ []
    ∧ invalidColumns ["id", "Name", "ISO2"]
        [[("id", "1"), ("Name", "France"), ("Capital", "Paris")]] ≠ []
    ∧ importCSV ["id", "Name", "ISO2"]
        [[("id", "1"), ("Name", "France"), ("Capital", "Paris")]]
        (fun _ => Except.ok ())
      = ⟨.badColumns ["Capital"] ["id", "Name", "ISO2"], []⟩ :=
  ⟨by decide, by decide,
    (import_aborts_on_invalid_columns ["id", "Name", "ISO2"]
        [[("id", "1"), ("Name", "France"), ("Capital", "Paris")]]
        (fun _ => Except.ok ()) (by decide) (by decide)).trans (by decide)⟩

/-- Claim C5: when parsing and column validation pass, every record is
attempted in order, a failing insert is recorded as its 1-based row index
(header excluded) and message without aborting the loop, the response
reports the success count and the total, and the error list is present
exactly when some row failed. -/
theorem import_partial_failure (validColumns : List String) (results : List CsvRec)
    (insertFn : CsvRec → Except String Unit)
    (hne : results ≠ []) (hok : invalidColumns validColumns results = []) :
    importCSV validColumns results insertFn
      = ⟨.report ((results.filter (insertOk insertFn)).length) results.length
          (if importFailuresFrom insertFn 0 results = [] then none
           else some (importFailuresFrom insertFn 0 results)),
         results⟩
    ∧ (importFailuresFrom insertFn 0 results = []
        ↔ ∀ r ∈ results, insertOk insertFn r = true) := by
  constructor
  · unfold importCSV
    rw [if_neg hne, if_neg (by simp [hok]), importLoop_spec]
  · exact importFailuresFrom_eq_nil insertFn results 0

/-- Claim C5 witness: three valid rows where exactly the second insert
fails yield `imported 2`, `total 3` and the single error at row 2. -/
theorem import_partial_failure_witness :
    ([[("Name", "Alice")], [("Name", "Bob")], [("Name", "Carol")]] : List CsvRec) ≠ []
    ∧ invalidColumns ["id", "Name"]
        [[("Name", "Alice")], [("Name", "Bob")], [("Name", "Carol")]] = []
    ∧ importCSV ["id", "Name"]
        [[("Name", "Alice")], [("Name", "Bob")], [("Name", "Carol")]]
        (fun r => if rowDataGet r "Name" = "Bob" then Except.error "duplicate key"
                  else Except.ok ())
      = ⟨.report 2 3 (some [(2, "duplicate key")]),
         [[("Name", "Alice")], [("Name", "Bob")], [("Name", "Carol")]]⟩ :=
  ⟨by decide, by decide,
    ((import_partial_failure ["id", "Name"]
        [[("Name", "Alice")], [("Name", "Bob")], [("Name", "Carol")]]
        (fun r => if rowDataGet r "Name" = "Bob" then Except.error "duplicate key"
                  else Except.ok ())
        (by decide) (by decide)).1).trans (by decide)⟩

/-- Claim C6 counterexample: on a table whose only numeric id is negative
the assigned id is not one plus the maximum existing numeric id.  The
stored row `-5,x` is read back as such by `readFile` (a negative first
field parses fine), its maximum numeric id is `-5`, so the claim predicts
the assigned id `-4`; but the `maxId` scan starts at 0 and only takes
strictly greater ids, so the code assigns `1`. -/
theorem insert_negative_id_counterexample :
    readContent [] "-5,x" = ⟨none, [["-5", "x"]], false⟩
    ∧ insertRow none [["-5", "x"]] [] = [["-5", "x"], ["1", ""]]
    ∧ (List.filterMap (fun r => jsParseInt (r.headD "")) [["-5", "x"]]).max? = some (-5)
    ∧ ("1" : String) ≠ "-4" :=
  ⟨by decide, by decide, by decide, by decide⟩

/-- Claim C6 as amended: the assigned id of the new row is one plus the
maximum of 0 and all existing numeric ids — hence one plus the maximum
existing numeric id whenever that maximum is nonnegative, and 1 when the
table is empty — and the id slot never takes the caller-supplied value:
every field named `id` receives the fresh id for any payload. -/
theorem insert_assigns_next_id (headers : Option (List Field)) (rows : List (List String))
    (rowData : List (String × String)) (i : Nat) (f : Field)
    (hf : (insertFields headers rows)[i]? = some f)
    (hid : jsToLower f.name = "id") :
    (insertNewRow (insertFields headers rows) (insertMaxId rows + 1) rowData)[i]?
        = some (toString (insertMaxId rows + 1))
    ∧ insertRow headers rows rowData
        = rows ++ [insertNewRow (insertFields headers rows) (insertMaxId rows + 1) rowData]
    ∧ 0 ≤ insertMaxId rows
    ∧ (∀ v ∈ rows.filterMap (fun r => jsParseInt (r.headD "")), v ≤ insertMaxId rows)
    ∧ (insertMaxId rows = 0
        ∨ insertMaxId rows ∈ rows.filterMap (fun r => jsParseInt (r.headD ""))) := by
  obtain ⟨h1, h2, h3⟩ :=
    foldl_max_spec (rows.filterMap (fun r => jsParseInt (r.headD ""))) 0
  have heq : insertMaxId rows
      = (rows.filterMap (fun r => jsParseInt (r.headD ""))).foldl max 0 :=
    foldl_maxIdStep_eq rows 0
  refine ⟨?_, rfl, ?_, ?_, ?_⟩
  · unfold insertNewRow
    rw [List.getElem?_map, hf]
    simp [hid]
  · rw [heq]; exact h1
  · rw [heq]; exact h2
  · rw [heq]; exact h3

/-- Claim C6 witness: inserting into the table with rows of ids 1 and 2
puts `3` in the id slot even though the payload says `999`. -/
theorem insert_assigns_next_id_witness :
    (insertNewRow (insertFields none [["1", "a"], ["2", "b"]])
        (insertMaxId [["1", "a"], ["2", "b"]] + 1) [("id", "999")])[0]?
      = some "3" :=
  ((insert_assigns_next_id none [["1", "a"], ["2", "b"]] [("id", "999")] 0
      { name := "id", type := "text", readonly := true } (by decide) (by decide)).1).trans
    (by decide)

/-- Claim C7 counterexample: the file-backed `getTableData` does not order
rows by id.  A stored file with the row of id 5 before the row of id 2 is
returned in exactly that order, which is not ascending. -/
theorem getAll_file_order_counterexample :
    (getTableData [] "t" (some "5,a\n2,b")).rows = [["5", "a"], ["2", "b"]]
    ∧ ¬ List.Pairwise rowIdLE [["5", "a"], ["2", "b"]] :=
  ⟨by decide, by decide⟩

/-- Claim C7 as amended: the remote-relational provider requests the rows
ordered by id ascending, so its projected rows come back with ascending id
values whenever the id field leads the metadata (which the schema reorder
guarantees); the file-backed provider returns the rows exactly as stored,
in file order, which need not be ascending. -/
theorem getAll_ordering_amended :
    (∀ (fields : List Field) (f0 : Field) (table : List SRecord),
        fields.head? = some f0 → f0.name = "id" →
        List.Pairwise jintLE
          ((supabaseGetTableData fields table).map (fun row => row.headD JValue.jnull)))
    ∧ ∀ (luCfg : List (String × String)) (tableName : String) (content : Option String),
        (getTableData luCfg tableName content).rows = (readFileFS luCfg content).rows := by
  constructor
  · intro fields f0 table h0 hname
    obtain ⟨rest, rfl⟩ : ∃ rest, fields = f0 :: rest := by
      cases fields with
      | nil => cases h0
      | cons a l =>
        refine ⟨l, ?_⟩
        have : a = f0 := by simpa using h0
        rw [this]
    have hproj : ((fun row => row.headD JValue.jnull) ∘
          fun record => (f0 :: rest).map fun f => recGet record f.name)
        = fun record => JValue.jint record.id := by
      funext record
      simp [recGet, hname]
    simp only [supabaseGetTableData, List.map_map, hproj]
    refine List.Pairwise.map _ ?_ (List.sorted_insertionSort recLE table)
    intro a b hab
    exact hab
  · intro luCfg tableName content
    rfl

/-- Claim C7 witness: projecting the two stored records of ids 3 and 1
through an id-led field list yields rows whose id values ascend. -/
theorem getAll_ordering_amended_witness :
    List.Pairwise jintLE
      ((supabaseGetTableData [{ name := "id", type := "integer", readonly := true }]
          [⟨3, []⟩, ⟨1, []⟩]).map (fun row => row.headD JValue.jnull)) :=
  getAll_ordering_amended.1 [{ name := "id", type := "integer", readonly := true }]
    { name := "id", type := "integer", readonly := true } [⟨3, []⟩, ⟨1, []⟩] rfl rfl

/-- Claim C8 counterexample: deleting a nonexistent id does not always
leave the file contents unchanged.  On a file containing a row without an
id, the `readFile` inside `deleteRow` runs the self-healing id pass and
persists the healed table before the id lookup fails, so the call still
errors with `Row not found` but the file now differs. -/
theorem delete_missing_id_heals_file_counterexample :
    (readContent [] "1,a\nxyz").needsUpdate = true
    ∧ deleteRowFile [] "1,a\nxyz" "99" = (Except.error "Row not found", "1,a\n2,xyz")
    ∧ ("1,a\n2,xyz" : String) ≠ "1,a\nxyz" :=
  ⟨by decide, by decide, by decide⟩

/-- Claim C8 as amended: deleting an id absent from the table fails with
`Row not found`, removes no row, and leaves the file contents unchanged
provided the read did not trigger the self-healing id rewrite (every
stored row already has a numeric id). -/
theorem delete_missing_id_unchanged (luCfg : List (String × String)) (content id : String)
    (hstable : (readContent luCfg content).needsUpdate = false)
    (habsent : ∀ r ∈ (readContent luCfg content).rows, r.headD "" ≠ id) :
    deleteRowFile luCfg content id = (Except.error "Row not found", content)
    ∧ (readContent luCfg content).rows.filter (fun r => !(r.headD "" == id))
        = (readContent luCfg content).rows := by
  have hfil : (readContent luCfg content).rows.filter (fun r => !(r.headD "" == id))
      = (readContent luCfg content).rows := by
    refine List.filter_eq_self.mpr ?_
    intro r hr
    simpa using habsent r hr
  have hdel : deleteRowRows (readContent luCfg content).rows id
      = Except.error "Row not found" := by
    simp only [deleteRowRows, hfil, if_true]
  refine ⟨?_, hfil⟩
  simp only [deleteRowFile, hdel, contentAfterRead, hstable, Bool.false_eq_true, if_false]

/-- Claim C8 witness: on the well-formed two-row table, deleting the
absent id 99 errors and the file is untouched. -/
theorem delete_missing_id_unchanged_witness :
    (readContent [] "1,a\n2,b").needsUpdate = false
    ∧ deleteRowFile [] "1,a\n2,b" "99" = (Except.error "Row not found", "1,a\n2,b") :=
  ⟨by decide,
    (delete_missing_id_unchanged [] "1,a\n2,b" "99" (by decide) (by decide)).1⟩

/-- Claim C9: with required auth the file-backed `login` accepts every
credential pair, returning success with the user identity built from the
supplied email. -/
theorem login_always_succeeds (email password : String) :
    login true email password
      = { success := true, user := { id := email, email := email } } :=
  rfl

/-- Claim C10: a missing backing file (ENOENT) reads as the empty table,
and `getTableData` on it succeeds with no rows and the single default id
field descriptor. -/
theorem missing_file_reads_empty_table (luCfg : List (String × String)) (tableName : String) :
    readFileFS luCfg none = ⟨none, [], false⟩
    ∧ (getTableData luCfg tableName none).rows = []
    ∧ (getTableData luCfg tableName none).headings
        = [{ name := "id", type := "integer", readonly := true }] :=
  ⟨rfl, rfl, rfl⟩

end BaseGrid
